import Mathlib

/-!
Shallow embedding of the BarkLog / PetCare pet-health record keeper
(Express + Drizzle + React), covering the data model (`shared/schema.ts`),
the repository layer (`server/stores.ts` as `DatabaseStorage`), the route
registrations (`server/routes.ts`), and the client-side status/reminder
derivation (pet-detail page, reminders page, dashboard).

Calendar dates (`date` columns, `parseISO` of `yyyy-MM-dd` strings) are
modelled as integer day numbers (days since 1970-01-01); `date-fns`'s
`differenceInDays` between two midnight dates is then integer subtraction,
and `addDays`/`isAfter`/`isBefore` are `+`/`>`/`<` on day numbers.
Identifier-generating `generatedAlwaysAsIdentity` columns are modelled by
per-table sequence counters in the storage state.  Presentation-only data
(React icon components, CSS class maps, the `detail` caption string built
by `format(...)`) is either modelled as plain strings (icon names) or
omitted where no claim touches it.
-/

namespace PetCare

/-- Civil-date to day-number conversion (days since 1970-01-01), the
standard era-based algorithm; used only to give the concrete dates that
appear in the spec their true day numbers. -/
def daysFromCivil (y m d : Int) : Int :=
  let y := if m ≤ 2 then y - 1 else y
  let era := (if 0 ≤ y then y else y - 399) / 400
  let yoe := y - era * 400
  let mp := (m + 9) % 12
  let doy := (153 * mp + 2) / 5 + d - 1
  let doe := yoe * 365 + yoe / 4 - yoe / 100 + doy
  era * 146097 + doe - 719468

/-- Event categories, the closed `event_category` enum of `shared/schema.ts`. -/
inductive EventCategory
  | vet_visit
  | medication
  | vaccination
  | appointment
deriving Repr, DecidableEq

/-- Badge variants of the UI (`"default" | "secondary" | "destructive" | "outline"`). -/
inductive BadgeVariant
  | default
  | secondary
  | destructive
  | outline
deriving Repr, DecidableEq

/-- Row of the `pets` table. -/
structure Pet where
  id : Nat
  name : String
  breed : String
  species : String
  dateOfBirth : Option Int
  avatarUrl : Option String
  color : Option String
  gender : Option String
deriving Repr, DecidableEq

/-- Row of the `weight_entries` table. -/
structure WeightEntry where
  id : Nat
  petId : Nat
  weight : Int
  unit : String
  recordedAt : Int
deriving Repr, DecidableEq

/-- Row of the `events` table (`createdAt` server timestamp not modelled). -/
structure Event where
  id : Nat
  title : String
  category : EventCategory
  notes : Option String
  eventDate : Int
  reminderDate : Option Int
  location : Option String
deriving Repr, DecidableEq

/-- Row of the `pet_events` join table. -/
structure PetEvent where
  id : Nat
  petId : Nat
  eventId : Nat
deriving Repr, DecidableEq

/-- Row of the `vaccinations` table. -/
structure Vaccination where
  id : Nat
  petId : Nat
  name : String
  dateAdministered : Int
  nextDueDate : Option Int
  veterinarian : Option String
  notes : Option String
  sourceEventId : Option Nat
deriving Repr, DecidableEq

/-- Row of the `medications` table. -/
structure Medication where
  id : Nat
  petId : Nat
  name : String
  dosage : Option String
  frequency : Option String
  startDate : Int
  endDate : Option Int
  prescribedBy : Option String
  notes : Option String
  active : Bool
  sourceEventId : Option Nat
deriving Repr, DecidableEq

/-- `EventWithPets = Event & { pets: Pet[] }` from `shared/schema.ts`. -/
structure EventWithPets where
  event : Event
  pets : List Pet
deriving Repr, DecidableEq

/-! ## Status derivation (pet-detail page) -/

/-- Result shape of `getVaccinationStatus`: label, badge variant, icon name. -/
structure VaxStatus where
  label : String
  variant : BadgeVariant
  icon : String
deriving Repr, DecidableEq

/-- Embeds `getVaccinationStatus` from the pet-detail page:
no next-due date gives `Recorded`; otherwise `daysUntilDue =
differenceInDays(nextDueDate, today)` classifies `< 0` as `Overdue`,
`≤ 30` as `Due in N days`, and the rest as `Current`. -/
def getVaccinationStatus (today : Int) (vax : Vaccination) : VaxStatus :=
  match vax.nextDueDate with
  | none => ⟨"Recorded", BadgeVariant.secondary, "CheckCircle2"⟩
  | some nd =>
    let daysUntilDue := nd - today
    if daysUntilDue < 0 then ⟨"Overdue", BadgeVariant.destructive, "AlertTriangle"⟩
    else if daysUntilDue ≤ 30 then
      ⟨"Due in " ++ toString daysUntilDue ++ " days", BadgeVariant.default, "Clock"⟩
    else ⟨"Current", BadgeVariant.secondary, "CheckCircle2"⟩

/-- Entry of the pet-detail `upcomingItems` list (the `detail` caption,
pure `format(...)` output, is not modelled). -/
structure UpcomingItem where
  type : String
  label : String
  daysUntil : Int
  variant : BadgeVariant
deriving Repr, DecidableEq

/-- Vaccination contribution to `upcomingItems`: pushed only when a
next-due date exists and `days ≤ 90`; the variant is `destructive` when
overdue, `default` within 14 days, `secondary` beyond. -/
def vaxUpcomingItem (today : Int) (v : Vaccination) : Option UpcomingItem :=
  match v.nextDueDate with
  | none => none
  | some nd =>
    let days := nd - today
    if days ≤ 90 then
      some ⟨"vaccination", v.name, days,
        if days < 0 then BadgeVariant.destructive
        else if days ≤ 14 then BadgeVariant.default
        else BadgeVariant.secondary⟩
    else none

/-- Medication contribution to `upcomingItems`: every active medication is
pushed with `daysUntil = 0` and the `default` variant. -/
def medUpcomingItem (m : Medication) : UpcomingItem :=
  ⟨"medication", m.name, 0, BadgeVariant.default⟩

/-- Ordering used by the `upcomingItems.sort((a, b) => a.daysUntil - b.daysUntil)` call. -/
def itemLe (a b : UpcomingItem) : Prop := a.daysUntil ≤ b.daysUntil

instance : DecidableRel itemLe := fun a b => inferInstanceAs (Decidable (a.daysUntil ≤ b.daysUntil))

instance : IsTotal UpcomingItem itemLe := ⟨fun a b => le_total a.daysUntil b.daysUntil⟩

instance : IsTrans UpcomingItem itemLe := ⟨fun _ _ _ hab hbc => le_trans hab hbc⟩

/-- Embeds the pet-detail `upcomingItems` computation: vaccination items
for next-due dates at most 90 days out (no lower bound), plus one item per
active medication, sorted ascending by `daysUntil`. -/
def upcomingItems (today : Int) (vaxes : List Vaccination) (meds : List Medication) :
    List UpcomingItem :=
  List.insertionSort itemLe
    (vaxes.filterMap (vaxUpcomingItem today) ++
      (meds.filter (fun m => m.active)).map medUpcomingItem)

/-- Embeds the status badge of the pet-detail upcoming list (lines rendering
`item.type === "medication" ? "Active" : daysUntil < 0 ? "Nd overdue" :
daysUntil === 0 ? "Today" : "Nd"`). -/
def upcomingBadgeLabel (item : UpcomingItem) : String :=
  if item.type = "medication" then "Active"
  else if item.daysUntil < 0 then toString item.daysUntil.natAbs ++ "d overdue"
  else if item.daysUntil = 0 then "Today"
  else toString item.daysUntil ++ "d"

/-- Medication lists of the pet-detail page: `medicationsData.filter((m) => m.active)`. -/
def activeMedications (meds : List Medication) : List Medication :=
  meds.filter (fun m => m.active)

/-- Medication lists of the pet-detail page: `medicationsData.filter((m) => !m.active)`. -/
def pastMedications (meds : List Medication) : List Medication :=
  meds.filter (fun m => !m.active)

/-- Embeds the `PATCH /api/medications/:id { active }` toggle as it acts on
a medication row (`db.update(medications).set({ active })`). -/
def setMedicationActive (m : Medication) (b : Bool) : Medication :=
  { m with active := b }

/-! ## Reminders page (`getStatus` and the window filter) -/

/-- Status tiers of the reminders page. -/
inductive ReminderStatus
  | overdue
  | today
  | soon
  | upcoming
deriving Repr, DecidableEq

/-- Result of the reminders-page `getStatus`. -/
structure ReminderInfo where
  status : ReminderStatus
  label : String
  daysUntil : Int
deriving Repr, DecidableEq

/-- Singular/plural helper mirroring `` `day${n === 1 ? "" : "s"}` ``. -/
def dayWord (n : Int) : String := if n = 1 then "day" else "days"

/-- Embeds the reminders-page `getStatus`: `daysUntil < 0` is overdue
("N day(s) overdue"), `0` is today, `≤ 3` is soon ("In N day(s)"), and the
rest upcoming ("In N days"). -/
def getStatus (today : Int) (eventDate : Int) : ReminderInfo :=
  let daysUntil := eventDate - today
  if daysUntil < 0 then
    ⟨ReminderStatus.overdue,
      toString daysUntil.natAbs ++ " " ++ dayWord daysUntil.natAbs ++ " overdue", daysUntil⟩
  else if daysUntil = 0 then ⟨ReminderStatus.today, "Today", daysUntil⟩
  else if daysUntil ≤ 3 then
    ⟨ReminderStatus.soon, "In " ++ toString daysUntil ++ " " ++ dayWord daysUntil, daysUntil⟩
  else ⟨ReminderStatus.upcoming, "In " ++ toString daysUntil ++ " days", daysUntil⟩

/-- Ordering used by the reminders-page `.sort((a, b) => a.daysUntil - b.daysUntil)`. -/
def reminderLe (a b : EventWithPets × ReminderInfo) : Prop :=
  a.2.daysUntil ≤ b.2.daysUntil

instance : DecidableRel reminderLe :=
  fun a b => inferInstanceAs (Decidable (a.2.daysUntil ≤ b.2.daysUntil))

instance : IsTotal (EventWithPets × ReminderInfo) reminderLe :=
  ⟨fun a b => le_total a.2.daysUntil b.2.daysUntil⟩

instance : IsTrans (EventWithPets × ReminderInfo) reminderLe :=
  ⟨fun _ _ _ hab hbc => le_trans hab hbc⟩

/-- Embeds the reminders-page list: events with
`isAfter(eventDate, addDays(today, -7)) && isBefore(eventDate, addDays(today, 90))`
(both bounds strict), each paired with its `getStatus`, sorted ascending by
`daysUntil`. -/
def remindersUpcomingEvents (today : Int) (events : List EventWithPets) :
    List (EventWithPets × ReminderInfo) :=
  List.insertionSort reminderLe
    ((events.filter (fun e =>
        decide (today - 7 < e.event.eventDate) && decide (e.event.eventDate < today + 90))).map
      (fun e => (e, getStatus today e.event.eventDate)))

/-! ## Dashboard windows -/

/-- Embeds the dashboard `upcomingEvents` filter:
`isAfter(eventDate, today) && isBefore(eventDate, addDays(today, 30))`. -/
def dashboardUpcomingEvents (today : Int) (events : List EventWithPets) :
    List EventWithPets :=
  events.filter (fun e =>
    decide (today < e.event.eventDate) && decide (e.event.eventDate < today + 30))

/-- Embeds the dashboard `overdueReminders` filter: a reminder date exists,
lies before today, and the event date lies after today. -/
def dashboardOverdueReminders (today : Int) (events : List EventWithPets) :
    List EventWithPets :=
  events.filter (fun e =>
    match e.event.reminderDate with
    | some r => decide (r < today) && decide (today < e.event.eventDate)
    | none => false)

/-! ## Repository layer (`DatabaseStorage` over the relational store) -/

/-- In-memory model of the relational store: one row list per table plus
per-table identity-column counters. -/
structure Storage where
  pets : List Pet
  weightEntries : List WeightEntry
  events : List Event
  petEvents : List PetEvent
  vaccinations : List Vaccination
  medications : List Medication
  petSeq : Nat
  weightSeq : Nat
  eventSeq : Nat
  petEventSeq : Nat
  vaccinationSeq : Nat
  medicationSeq : Nat
deriving Repr, DecidableEq

/-- Ascending name order of `orderBy(asc(pets.name))`. -/
def petLe (a b : Pet) : Prop := a.name ≤ b.name

instance : DecidableRel petLe := fun a b => inferInstanceAs (Decidable (a.name ≤ b.name))

instance : IsTotal Pet petLe := ⟨fun a b => le_total a.name b.name⟩

instance : IsTrans Pet petLe := ⟨fun _ _ _ hab hbc => le_trans hab hbc⟩

/-- Ascending recorded-date order of `orderBy(asc(weightEntries.recordedAt))`. -/
def weightLe (a b : WeightEntry) : Prop := a.recordedAt ≤ b.recordedAt

instance : DecidableRel weightLe :=
  fun a b => inferInstanceAs (Decidable (a.recordedAt ≤ b.recordedAt))

instance : IsTotal WeightEntry weightLe := ⟨fun a b => le_total a.recordedAt b.recordedAt⟩

instance : IsTrans WeightEntry weightLe := ⟨fun _ _ _ hab hbc => le_trans hab hbc⟩

/-- Ascending recorded-date order on name-joined weight rows. -/
def weightNamedLe (a b : WeightEntry × String) : Prop := a.1.recordedAt ≤ b.1.recordedAt

instance : DecidableRel weightNamedLe :=
  fun a b => inferInstanceAs (Decidable (a.1.recordedAt ≤ b.1.recordedAt))

instance : IsTotal (WeightEntry × String) weightNamedLe :=
  ⟨fun a b => le_total a.1.recordedAt b.1.recordedAt⟩

instance : IsTrans (WeightEntry × String) weightNamedLe :=
  ⟨fun _ _ _ hab hbc => le_trans hab hbc⟩

/-- Descending event-date order of `orderBy(desc(events.eventDate))`. -/
def eventDesc (a b : Event) : Prop := b.eventDate ≤ a.eventDate

instance : DecidableRel eventDesc :=
  fun a b => inferInstanceAs (Decidable (b.eventDate ≤ a.eventDate))

instance : IsTotal Event eventDesc := ⟨fun a b => (le_total a.eventDate b.eventDate).symm⟩

instance : IsTrans Event eventDesc := ⟨fun _ _ _ hab hbc => le_trans hbc hab⟩

/-- Descending date-administered order of `orderBy(desc(vaccinations.dateAdministered))`. -/
def vaxDesc (a b : Vaccination) : Prop := b.dateAdministered ≤ a.dateAdministered

instance : DecidableRel vaxDesc :=
  fun a b => inferInstanceAs (Decidable (b.dateAdministered ≤ a.dateAdministered))

instance : IsTotal Vaccination vaxDesc :=
  ⟨fun a b => (le_total a.dateAdministered b.dateAdministered).symm⟩

instance : IsTrans Vaccination vaxDesc := ⟨fun _ _ _ hab hbc => le_trans hbc hab⟩

/-- Descending start-date order of `orderBy(desc(medications.startDate))`. -/
def medDesc (a b : Medication) : Prop := b.startDate ≤ a.startDate

instance : DecidableRel medDesc :=
  fun a b => inferInstanceAs (Decidable (b.startDate ≤ a.startDate))

instance : IsTotal Medication medDesc := ⟨fun a b => (le_total a.startDate b.startDate).symm⟩

instance : IsTrans Medication medDesc := ⟨fun _ _ _ hab hbc => le_trans hbc hab⟩

/-- Descending event-date order carried over to `EventWithPets` rows. -/
def ewpDesc (a b : EventWithPets) : Prop := b.event.eventDate ≤ a.event.eventDate

/-- Embeds `getPets`: `select().from(pets).orderBy(asc(pets.name))`. -/
def getPets (st : Storage) : List Pet :=
  List.insertionSort petLe st.pets

/-- Embeds `getPet`: single-row select by primary key, `undefined` when absent. -/
def getPet (st : Storage) (id : Nat) : Option Pet :=
  st.pets.find? (fun p => decide (p.id = id))

/-- Fields of an `insertPetSchema` payload (the `id` column is generated). -/
structure InsertPet where
  name : String
  breed : String
  species : String
  dateOfBirth : Option Int
  avatarUrl : Option String
  color : Option String
  gender : Option String
deriving Repr, DecidableEq

/-- Embeds `createPet`: insert with a generated identity, returning the row. -/
def createPet (st : Storage) (p : InsertPet) : Pet × Storage :=
  let created : Pet :=
    ⟨st.petSeq, p.name, p.breed, p.species, p.dateOfBirth, p.avatarUrl, p.color, p.gender⟩
  (created, { st with pets := st.pets ++ [created], petSeq := st.petSeq + 1 })

/-- A `Partial<InsertPet>` body: every field optional; nullable columns may
be present-and-null (the outer `Option` is presence, the inner the column's
own nullability). -/
structure PetPatch where
  name : Option String := none
  breed : Option String := none
  species : Option String := none
  dateOfBirth : Option (Option Int) := none
  avatarUrl : Option (Option String) := none
  color : Option (Option String) := none
  gender : Option (Option String) := none
deriving Repr, DecidableEq

/-- Applies a `set(data)` clause to one row. -/
def applyPetPatch (patch : PetPatch) (p : Pet) : Pet :=
  { p with
    name := patch.name.getD p.name
    breed := patch.breed.getD p.breed
    species := patch.species.getD p.species
    dateOfBirth := patch.dateOfBirth.getD p.dateOfBirth
    avatarUrl := patch.avatarUrl.getD p.avatarUrl
    color := patch.color.getD p.color
    gender := patch.gender.getD p.gender }

/-- Embeds `updatePet`: `update(pets).set(data).where(eq(pets.id, id)).returning()`
destructured to the first returned row, `undefined` when no row matched. -/
def updatePet (st : Storage) (id : Nat) (patch : PetPatch) : Option Pet × Storage :=
  match st.pets.find? (fun p => decide (p.id = id)) with
  | none => (none, st)
  | some p =>
    (some (applyPetPatch patch p),
      { st with pets := st.pets.map (fun q => if q.id = id then applyPetPatch patch q else q) })

/-- Embeds `getWeightEntries(petId)`: rows of one pet ordered by recorded date ascending. -/
def getWeightEntries (st : Storage) (petId : Nat) : List WeightEntry :=
  List.insertionSort weightLe (st.weightEntries.filter (fun w => decide (w.petId = petId)))

/-- Embeds `getAllWeightEntries`: inner join with `pets` attaching the pet
name, ordered by recorded date ascending. -/
def getAllWeightEntries (st : Storage) : List (WeightEntry × String) :=
  List.insertionSort weightNamedLe
    (st.weightEntries.filterMap (fun w =>
      (st.pets.find? (fun p => decide (p.id = w.petId))).map (fun p => (w, p.name))))

/-- Joined pets of one event (`petEvents` inner-join `pets` filtered by event id). -/
def attachPets (st : Storage) (e : Event) : EventWithPets :=
  ⟨e, (st.petEvents.filter (fun r => decide (r.eventId = e.id))).filterMap
      (fun r => st.pets.find? (fun p => decide (p.id = r.petId)))⟩

/-- Embeds `getEvents`: all events ordered by event date descending, each
with its linked pets attached. -/
def getEvents (st : Storage) : List EventWithPets :=
  (List.insertionSort eventDesc st.events).map (attachPets st)

/-- Embeds `getEventsByPet`: the event ids linked to the pet; empty result
when there are none, otherwise `getEvents` filtered to those ids. -/
def getEventsByPet (st : Storage) (petId : Nat) : List EventWithPets :=
  let eventIds :=
    (st.petEvents.filter (fun r => decide (r.petId = petId))).map (fun r => r.eventId)
  if eventIds.isEmpty then []
  else (getEvents st).filter (fun e => decide (e.event.id ∈ eventIds))

/-- Fields of an `insertEventSchema` payload. -/
structure InsertEvent where
  title : String
  category : EventCategory
  notes : Option String
  eventDate : Int
  reminderDate : Option Int
  location : Option String
deriving Repr, DecidableEq

/-- Join rows inserted by `createEvent` for one event, identity ids assigned
consecutively in petIds order. -/
def mkPetEventRows (seq : Nat) (eventId : Nat) : List Nat → List PetEvent
  | [] => []
  | pid :: rest => ⟨seq, pid, eventId⟩ :: mkPetEventRows (seq + 1) eventId rest

/-- Embeds `createEvent`: insert the event row, then, when `petIds` is
non-empty, insert one join row per pet id; returns the created event. -/
def createEvent (st : Storage) (e : InsertEvent) (petIds : List Nat) : Event × Storage :=
  let created : Event :=
    ⟨st.eventSeq, e.title, e.category, e.notes, e.eventDate, e.reminderDate, e.location⟩
  let st1 := { st with events := st.events ++ [created], eventSeq := st.eventSeq + 1 }
  if petIds.isEmpty then (created, st1)
  else
    (created,
      { st1 with
        petEvents := st1.petEvents ++ mkPetEventRows st1.petEventSeq created.id petIds
        petEventSeq := st1.petEventSeq + petIds.length })

/-- First step of `deleteEvent`: `delete(petEvents).where(eq(petEvents.eventId, id))`. -/
def deleteEventJoins (st : Storage) (id : Nat) : Storage :=
  { st with petEvents := st.petEvents.filter (fun r => decide (r.eventId ≠ id)) }

/-- Second step of `deleteEvent`: `delete(events).where(eq(events.id, id))`. -/
def deleteEventRow (st : Storage) (id : Nat) : Storage :=
  { st with events := st.events.filter (fun e => decide (e.id ≠ id)) }

/-- Embeds `deleteEvent`: join rows removed first, then the event row. -/
def deleteEvent (st : Storage) (id : Nat) : Storage :=
  deleteEventRow (deleteEventJoins st id) id

/-- Embeds `getVaccinationsByPet`: one pet's rows ordered by date administered descending. -/
def getVaccinationsByPet (st : Storage) (petId : Nat) : List Vaccination :=
  List.insertionSort vaxDesc (st.vaccinations.filter (fun v => decide (v.petId = petId)))

/-- Embeds `getMedicationsByPet`: one pet's rows ordered by start date descending. -/
def getMedicationsByPet (st : Storage) (petId : Nat) : List Medication :=
  List.insertionSort medDesc (st.medications.filter (fun m => decide (m.petId = petId)))

/-! ## API layer (`registerRoutes`) -/

/-- HTTP methods used by the route table. -/
inductive HttpMethod
  | get
  | post
  | patch
  | delete
deriving Repr, DecidableEq

/-- The complete route table installed by `registerRoutes` in
`server/routes.ts`, in registration order (the object-storage integration
routes are an excluded external collaborator). -/
def registeredRoutes : List (HttpMethod × String) :=
  [(HttpMethod.get, "/api/pets"),
   (HttpMethod.get, "/api/pets/:id"),
   (HttpMethod.post, "/api/pets"),
   (HttpMethod.patch, "/api/pets/:id"),
   (HttpMethod.delete, "/api/pets/:id"),
   (HttpMethod.get, "/api/pets/:id/weights"),
   (HttpMethod.get, "/api/weight-entries"),
   (HttpMethod.post, "/api/weight-entries"),
   (HttpMethod.get, "/api/events"),
   (HttpMethod.get, "/api/pets/:id/events"),
   (HttpMethod.post, "/api/events"),
   (HttpMethod.delete, "/api/events/:id")]

/-- The vaccination and medication CRUD surface the spec's endpoint table
lists, and which the client pages actually request (`GET/POST` under
`/api/pets/:id/...`, `PATCH/DELETE` under the flat `/api/.../:id`). -/
def vaccinationMedicationEndpoints : List (HttpMethod × String) :=
  [(HttpMethod.get, "/api/pets/:id/vaccinations"),
   (HttpMethod.post, "/api/pets/:id/vaccinations"),
   (HttpMethod.patch, "/api/vaccinations/:id"),
   (HttpMethod.delete, "/api/vaccinations/:id"),
   (HttpMethod.get, "/api/pets/:id/medications"),
   (HttpMethod.post, "/api/pets/:id/medications"),
   (HttpMethod.patch, "/api/medications/:id"),
   (HttpMethod.delete, "/api/medications/:id")]

/-- Response of `GET /api/pets/:id` and `PATCH /api/pets/:id` (body is the
pet on success, an error string otherwise); `idParam = none` models a path
parameter that `parseInt` turned into `NaN`. -/
structure PetResponse where
  status : Nat
  error : Option String
  body : Option Pet
deriving Repr, DecidableEq

/-- Embeds the `GET /api/pets/:id` handler: invalid id gives 400, an absent
pet 404, otherwise 200 with the row. -/
def getPetRoute (st : Storage) (idParam : Option Nat) : PetResponse :=
  match idParam with
  | none => ⟨400, some "Invalid pet ID", none⟩
  | some id =>
    match getPet st id with
    | none => ⟨404, some "Pet not found", none⟩
    | some p => ⟨200, none, some p⟩

/-- Embeds the `PATCH /api/pets/:id` handler on a schema-valid body:
invalid id gives 400, an absent pet 404, otherwise 200 with the updated row
(ZodError branches concern malformed bodies, which a typed `PetPatch`
cannot express). -/
def patchPetRoute (st : Storage) (idParam : Option Nat) (patch : PetPatch) :
    PetResponse × Storage :=
  match idParam with
  | none => (⟨400, some "Invalid pet ID", none⟩, st)
  | some id =>
    match updatePet st id patch with
    | (none, st') => (⟨404, some "Pet not found", none⟩, st')
    | (some p, st') => (⟨200, none, some p⟩, st')

/-- Outcome of the `POST /api/events` handler. -/
inductive PostEventResult
  | badRequest (message : String)
  | created (event : Event)
deriving Repr, DecidableEq

/-- Status code carried by a `PostEventResult`. -/
def PostEventResult.status : PostEventResult → Nat
  | badRequest _ => 400
  | created _ => 201

/-- Embeds the `POST /api/events` handler on a schema-valid body:
`petIds` missing/not-an-array (`none`) or empty is rejected with 400 and
the explicit message before any storage call; otherwise the event is
created together with its join rows and returned with 201. -/
def postEventsRoute (st : Storage) (body : InsertEvent) (petIds : Option (List Nat)) :
    PostEventResult × Storage :=
  match petIds with
  | none => (PostEventResult.badRequest "At least one pet must be selected", st)
  | some ids =>
    if ids.isEmpty then (PostEventResult.badRequest "At least one pet must be selected", st)
    else
      let r := createEvent st body ids
      (PostEventResult.created r.1, r.2)

/-- Shape of the `upcomingItems` entry pushed for a vaccination whose
next-due date `d` passes the 90-day window test. -/
def vaxItemAt (today : Int) (v : Vaccination) (d : Int) : UpcomingItem :=
  ⟨"vaccination", v.name, d - today,
    if d - today < 0 then BadgeVariant.destructive
    else if d - today ≤ 14 then BadgeVariant.default
    else BadgeVariant.secondary⟩

/-! ## Concrete fixtures used by witnesses and counterexamples -/

/-- The reference date of the spec's worked examples, 2026-01-15. -/
def refToday : Int := daysFromCivil 2026 1 15

/-- A storage state with all tables empty. -/
def emptyStorage : Storage := ⟨[], [], [], [], [], [], 1, 1, 1, 1, 1, 1⟩

/-- A vaccination fixture with a given next-due date. -/
def mkVax (nextDue : Option Int) : Vaccination :=
  ⟨1, 1, "Rabies", daysFromCivil 2025 1 15, nextDue, none, none, none⟩

/-- An event-creation body fixture. -/
def sampleInsertEvent : InsertEvent :=
  ⟨"Checkup", EventCategory.vet_visit, none, refToday, none, none⟩

/-- An event fixture dated ten days after the reference date. -/
def sampleEventWithPets : EventWithPets :=
  ⟨⟨1, "Checkup", EventCategory.vet_visit, none, refToday + 10, none, none⟩, []⟩

end PetCare

/-! Sanity checks on the date model. -/

example : PetCare.daysFromCivil 1970 1 1 = 0 := by decide

example : PetCare.daysFromCivil 2026 1 15 - PetCare.daysFromCivil 2026 1 10 = 5 := by decide

example : PetCare.daysFromCivil 2026 4 1 - PetCare.daysFromCivil 2026 1 15 = 76 := by decide

namespace PetCare

/-! ## Helper lemmas -/

/-- Membership in the sorted pet-detail upcoming list is membership in the
unsorted vaccination and medication contributions. -/
theorem mem_upcomingItems {today : Int} {vaxes : List Vaccination} {meds : List Medication}
    {it : UpcomingItem} :
    it ∈ upcomingItems today vaxes meds ↔
      it ∈ vaxes.filterMap (vaxUpcomingItem today) ∨
      it ∈ (meds.filter (fun m => m.active)).map medUpcomingItem := by
  simp [upcomingItems, List.mem_insertionSort, List.mem_append]

/-- A vaccination with next-due date `d` contributes exactly its item, and
only when `d - today ≤ 90`. -/
theorem vaxUpcomingItem_eq {today d : Int} {v : Vaccination} (hd : v.nextDueDate = some d) :
    vaxUpcomingItem today v =
      if d - today ≤ 90 then some (vaxItemAt today v d) else none := by
  simp only [vaxUpcomingItem, hd, vaxItemAt]

/-- Every item of the pet-detail upcoming list has a day-offset of at most 90. -/
theorem upcomingItems_daysUntil_le {today : Int} {vaxes : List Vaccination}
    {meds : List Medication} {it : UpcomingItem}
    (h : it ∈ upcomingItems today vaxes meds) : it.daysUntil ≤ 90 := by
  rcases mem_upcomingItems.1 h with hv | hm
  · rcases List.mem_filterMap.1 hv with ⟨v, _, hval⟩
    rcases hnd : v.nextDueDate with _ | d
    · simp [vaxUpcomingItem, hnd] at hval
    · rw [vaxUpcomingItem_eq hnd] at hval
      by_cases hle : d - today ≤ 90
      · rw [if_pos hle] at hval
        cases hval
        simpa [vaxItemAt] using hle
      · rw [if_neg hle] at hval
        exact absurd hval (by simp)
  · rcases List.mem_map.1 hm with ⟨m, _, hval⟩
    cases hval
    simp [medUpcomingItem]

end PetCare

/-! ## Claim theorems -/

/-- C1: the spec's endpoint table promises vaccination CRUD under
`/pets/:id/vaccinations` and `/vaccinations/:id` and medication CRUD under
`/pets/:id/medications` and `/medications/:id`, every such request
dispatching to the repository.  Evidence for the code bug: the route table
installed by `registerRoutes` (all twelve registrations of
`server/routes.ts`) contains none of those endpoints — in particular the
`PATCH /api/vaccinations/:id` request the pet-detail page issues matches no
registered route — even though the repository implements the operations and
the repository's own changelog documents the feature. -/
theorem c1_vaccination_medication_routes_missing :
    (PetCare.HttpMethod.patch, "/api/vaccinations/:id") ∉ PetCare.registeredRoutes ∧
    PetCare.vaccinationMedicationEndpoints.filter
      (fun r => decide (r ∈ PetCare.registeredRoutes)) = [] ∧
    PetCare.registeredRoutes.length = 12 := by
  decide

/-- C4: a medication classifies as active exactly when its explicit
`active` flag is true and as completed exactly when it is false,
independent of the end date; flipping the flag to false reclassifies the
row from the active list to the past ("Completed") list whatever its end
date is. -/
theorem c4_medication_status_by_active_flag (meds : List PetCare.Medication)
    (m : PetCare.Medication) (d : Option Int) :
    (m ∈ PetCare.activeMedications meds ↔ m ∈ meds ∧ m.active = true) ∧
    (m ∈ PetCare.pastMedications meds ↔ m ∈ meds ∧ m.active = false) ∧
    (PetCare.activeMedications [{ m with endDate := d }] =
      if m.active then [{ m with endDate := d }] else []) ∧
    (PetCare.pastMedications [{ m with endDate := d }] =
      if m.active then [] else [{ m with endDate := d }]) ∧
    (PetCare.activeMedications [PetCare.setMedicationActive m false] = []) ∧
    (PetCare.pastMedications [PetCare.setMedicationActive m false] =
      [PetCare.setMedicationActive m false]) := by
  refine ⟨?_, ?_, ?_, ?_, ?_, ?_⟩
  · simp [PetCare.activeMedications, List.mem_filter]
  · simp [PetCare.pastMedications, List.mem_filter]
  · cases hm : m.active <;> simp [PetCare.activeMedications, List.filter, hm]
  · cases hm : m.active <;> simp [PetCare.pastMedications, List.filter, hm]
  · simp [PetCare.activeMedications, PetCare.setMedicationActive, List.filter]
  · simp [PetCare.pastMedications, PetCare.setMedicationActive, List.filter]

/-- C7: an event is in the dashboard's upcoming list exactly when its event
date lies in the next 30 days of the reference date (both comparisons
strict, as `isAfter`/`isBefore` are), and in the overdue-reminder list
exactly when it carries a reminder date before the reference date while its
event date is still after it. -/
theorem c7_dashboard_event_windows (today : Int) (events : List PetCare.EventWithPets)
    (e : PetCare.EventWithPets) :
    (e ∈ PetCare.dashboardUpcomingEvents today events ↔
      e ∈ events ∧ today < e.event.eventDate ∧ e.event.eventDate < today + 30) ∧
    (e ∈ PetCare.dashboardOverdueReminders today events ↔
      e ∈ events ∧ ∃ r, e.event.reminderDate = some r ∧
        r < today ∧ today < e.event.eventDate) := by
  constructor
  · simp [PetCare.dashboardUpcomingEvents, List.mem_filter, and_assoc]
  · simp only [PetCare.dashboardOverdueReminders, List.mem_filter]
    rcases hr : e.event.reminderDate with _ | r <;> simp [hr, and_assoc]

/-- C10: calling the repository's `createEvent` directly with an empty
pet-id list succeeds: the event row is appended, no join row is inserted,
and the created event (with the generated identity) is returned; the
empty-list rejection lives only in the `POST /api/events` handler. -/
theorem c10_create_event_empty_pet_list (st : PetCare.Storage) (e : PetCare.InsertEvent) :
    ((PetCare.createEvent st e []).2.events =
      st.events ++ [(PetCare.createEvent st e []).1]) ∧
    ((PetCare.createEvent st e []).2.petEvents = st.petEvents) ∧
    ((PetCare.createEvent st e []).1 =
      ⟨st.eventSeq, e.title, e.category, e.notes, e.eventDate, e.reminderDate, e.location⟩) ∧
    (PetCare.postEventsRoute st e (some []) =
      (PetCare.PostEventResult.badRequest "At least one pet must be selected", st)) := by
  exact ⟨rfl, rfl, rfl, rfl⟩

/-- C2 counterexample: with today = 2026-01-15 a vaccination next due
2026-01-25 has day-offset 10, which the claim (offset > 3) classifies as
current/upcoming, but `getVaccinationStatus` classifies it in its due-soon
tier with label "Due in 10 days" (default variant, Clock icon), not
"Current". -/
theorem c2_counterexample :
    PetCare.daysFromCivil 2026 1 25 - PetCare.refToday = 10 ∧
    ¬((10 : Int) ≤ 3) ∧
    PetCare.getVaccinationStatus PetCare.refToday
        (PetCare.mkVax (some (PetCare.daysFromCivil 2026 1 25))) =
      ⟨"Due in 10 days", PetCare.BadgeVariant.default, "Clock"⟩ ∧
    (PetCare.getVaccinationStatus PetCare.refToday
        (PetCare.mkVax (some (PetCare.daysFromCivil 2026 1 25)))).label ≠ "Current" := by
  decide

/-- C2 (amended): for every vaccination with a next-due date and reference
date today, with offset = nextDueDate − today, `getVaccinationStatus`
classifies offset < 0 as Overdue, 0 ≤ offset ≤ 30 as due-soon with label
"Due in N days", and offset > 30 as Current; the pet-detail upcoming badge
shows "Nd overdue" for negative offsets, "Today" at offset 0 and "Nd" for
positive offsets. -/
theorem c2_amended_vaccination_status (today d : Int) (v : PetCare.Vaccination)
    (h : v.nextDueDate = some d) :
    (d - today < 0 →
      PetCare.getVaccinationStatus today v =
        ⟨"Overdue", PetCare.BadgeVariant.destructive, "AlertTriangle"⟩) ∧
    (0 ≤ d - today → d - today ≤ 30 →
      PetCare.getVaccinationStatus today v =
        ⟨"Due in " ++ toString (d - today) ++ " days", PetCare.BadgeVariant.default, "Clock"⟩) ∧
    (30 < d - today →
      PetCare.getVaccinationStatus today v =
        ⟨"Current", PetCare.BadgeVariant.secondary, "CheckCircle2"⟩) ∧
    (∀ it : PetCare.UpcomingItem, it.type = "vaccination" →
      (it.daysUntil < 0 →
        PetCare.upcomingBadgeLabel it = toString it.daysUntil.natAbs ++ "d overdue") ∧
      (it.daysUntil = 0 → PetCare.upcomingBadgeLabel it = "Today") ∧
      (0 < it.daysUntil → PetCare.upcomingBadgeLabel it = toString it.daysUntil ++ "d")) := by
  refine ⟨?_, ?_, ?_, ?_⟩
  · intro hlt
    simp only [PetCare.getVaccinationStatus, h]
    rw [if_pos hlt]
  · intro h0 h30
    simp only [PetCare.getVaccinationStatus, h]
    rw [if_neg (not_lt.2 h0), if_pos h30]
  · intro hgt
    simp only [PetCare.getVaccinationStatus, h]
    rw [if_neg (by omega), if_neg (by omega)]
  · intro it hty
    have hne : ¬it.type = "medication" := by rw [hty]; decide
    refine ⟨?_, ?_, ?_⟩
    · intro hlt
      simp only [PetCare.upcomingBadgeLabel]
      rw [if_neg hne, if_pos hlt]
    · intro hz
      simp only [PetCare.upcomingBadgeLabel]
      rw [if_neg hne, if_neg (by omega), if_pos hz]
    · intro hpos
      simp only [PetCare.upcomingBadgeLabel]
      rw [if_neg hne, if_neg (by omega), if_neg (by omega)]

/-- C2 witness: the spec's worked examples evaluated through the amended
classification at today = 2026-01-15: next-due 2026-01-10 is Overdue (and
an offset −5 item badges as "5d overdue"), 2026-01-15 gives "Due in 0 days"
(badging as "Today"), 2026-01-17 gives "Due in 2 days", and 2026-04-01 is
Current. -/
theorem c2_amended_vaccination_status_witness :
    PetCare.getVaccinationStatus PetCare.refToday
        (PetCare.mkVax (some (PetCare.daysFromCivil 2026 1 10))) =
      ⟨"Overdue", PetCare.BadgeVariant.destructive, "AlertTriangle"⟩ ∧
    PetCare.getVaccinationStatus PetCare.refToday
        (PetCare.mkVax (some (PetCare.daysFromCivil 2026 1 15))) =
      ⟨"Due in 0 days", PetCare.BadgeVariant.default, "Clock"⟩ ∧
    PetCare.getVaccinationStatus PetCare.refToday
        (PetCare.mkVax (some (PetCare.daysFromCivil 2026 1 17))) =
      ⟨"Due in 2 days", PetCare.BadgeVariant.default, "Clock"⟩ ∧
    PetCare.getVaccinationStatus PetCare.refToday
        (PetCare.mkVax (some (PetCare.daysFromCivil 2026 4 1))) =
      ⟨"Current", PetCare.BadgeVariant.secondary, "CheckCircle2"⟩ ∧
    PetCare.upcomingBadgeLabel
        ⟨"vaccination", "Rabies", -5, PetCare.BadgeVariant.destructive⟩ = "5d overdue" ∧
    PetCare.upcomingBadgeLabel
        ⟨"vaccination", "Rabies", 0, PetCare.BadgeVariant.default⟩ = "Today" := by
  refine ⟨?_, ?_, ?_, ?_, ?_, ?_⟩
  · exact (c2_amended_vaccination_status PetCare.refToday (PetCare.daysFromCivil 2026 1 10)
      (PetCare.mkVax (some (PetCare.daysFromCivil 2026 1 10))) rfl).1 (by decide)
  · exact ((c2_amended_vaccination_status PetCare.refToday (PetCare.daysFromCivil 2026 1 15)
      (PetCare.mkVax (some (PetCare.daysFromCivil 2026 1 15))) rfl).2.1
        (by decide) (by decide)).trans (by decide)
  · exact ((c2_amended_vaccination_status PetCare.refToday (PetCare.daysFromCivil 2026 1 17)
      (PetCare.mkVax (some (PetCare.daysFromCivil 2026 1 17))) rfl).2.1
        (by decide) (by decide)).trans (by decide)
  · exact (c2_amended_vaccination_status PetCare.refToday (PetCare.daysFromCivil 2026 4 1)
      (PetCare.mkVax (some (PetCare.daysFromCivil 2026 4 1))) rfl).2.2.1 (by decide)
  · exact (((c2_amended_vaccination_status PetCare.refToday 0 (PetCare.mkVax (some 0))
      rfl).2.2.2 ⟨"vaccination", "Rabies", -5, PetCare.BadgeVariant.destructive⟩ rfl).1
        (by decide)).trans (by decide)
  · exact ((c2_amended_vaccination_status PetCare.refToday 0 (PetCare.mkVax (some 0))
      rfl).2.2.2 ⟨"vaccination", "Rabies", 0, PetCare.BadgeVariant.default⟩ rfl).2.1 rfl

/-- C9: when no pet has the requested id, `getPet` returns an absent result
and `updatePet` returns an absent result leaving the store unchanged (no
exception is modelled or needed), and the handlers for `GET /api/pets/:id`
and `PATCH /api/pets/:id` map that absence to a 404 "Pet not found"
response, distinct from the 400 responses of identifier validation. -/
theorem c9_not_found_absent_result (st : PetCare.Storage) (id : Nat)
    (patch : PetCare.PetPatch) (h : ∀ p ∈ st.pets, p.id ≠ id) :
    PetCare.getPet st id = none ∧
    (PetCare.updatePet st id patch).1 = none ∧
    (PetCare.updatePet st id patch).2 = st ∧
    PetCare.getPetRoute st (some id) = ⟨404, some "Pet not found", none⟩ ∧
    (PetCare.patchPetRoute st (some id) patch).1 = ⟨404, some "Pet not found", none⟩ ∧
    PetCare.getPetRoute st none = ⟨400, some "Invalid pet ID", none⟩ := by
  have hf : st.pets.find? (fun p => decide (p.id = id)) = none := by
    rw [List.find?_eq_none]
    intro p hp
    simpa using h p hp
  refine ⟨?_, ?_, ?_, ?_, ?_, rfl⟩
  · simpa [PetCare.getPet] using hf
  · simp [PetCare.updatePet, hf]
  · simp [PetCare.updatePet, hf]
  · simp [PetCare.getPetRoute, PetCare.getPet, hf]
  · simp [PetCare.patchPetRoute, PetCare.updatePet, hf]

/-- C9 witness: the empty store at id 1. -/
theorem c9_not_found_absent_result_witness :
    PetCare.getPet PetCare.emptyStorage 1 = none ∧
    (PetCare.updatePet PetCare.emptyStorage 1 {}).1 = none ∧
    (PetCare.updatePet PetCare.emptyStorage 1 {}).2 = PetCare.emptyStorage ∧
    PetCare.getPetRoute PetCare.emptyStorage (some 1) = ⟨404, some "Pet not found", none⟩ ∧
    (PetCare.patchPetRoute PetCare.emptyStorage (some 1) {}).1 =
      ⟨404, some "Pet not found", none⟩ ∧
    PetCare.getPetRoute PetCare.emptyStorage none = ⟨400, some "Invalid pet ID", none⟩ :=
  c9_not_found_absent_result PetCare.emptyStorage 1 {}
    (by intro p hp; simp [PetCare.emptyStorage] at hp)

/-- C8: every repository listing is deterministically ordered for every
store state: pets ascending by name, per-pet and cross-pet weight entries
ascending by recorded date, events (with pets attached) descending by event
date, per-pet vaccinations descending by date administered, and per-pet
medications descending by start date. -/
theorem c8_listing_operations_ordered (st : PetCare.Storage) (pid : Nat) :
    List.Sorted PetCare.petLe (PetCare.getPets st) ∧
    List.Sorted PetCare.weightLe (PetCare.getWeightEntries st pid) ∧
    List.Sorted PetCare.weightNamedLe (PetCare.getAllWeightEntries st) ∧
    List.Sorted PetCare.ewpDesc (PetCare.getEvents st) ∧
    List.Sorted PetCare.vaxDesc (PetCare.getVaccinationsByPet st pid) ∧
    List.Sorted PetCare.medDesc (PetCare.getMedicationsByPet st pid) := by
  refine ⟨List.sorted_insertionSort _ _, List.sorted_insertionSort _ _,
    List.sorted_insertionSort _ _, ?_, List.sorted_insertionSort _ _,
    List.sorted_insertionSort _ _⟩
  exact List.Pairwise.map _ (fun a b hab => hab)
    (List.sorted_insertionSort PetCare.eventDesc st.events)

/-- C6: deleting an event first empties its join rows while the event table
is still untouched, the combined deletion leaves neither join rows nor the
event row, and afterwards no per-pet event list contains an event with the
deleted id. -/
theorem c6_delete_event_removes_joins_first (st : PetCare.Storage) (id : Nat) (p : Nat) :
    ((PetCare.deleteEventJoins st id).petEvents.filter
        (fun r => decide (r.eventId = id)) = [] ∧
      (PetCare.deleteEventJoins st id).events = st.events) ∧
    ((PetCare.deleteEvent st id).petEvents.filter
        (fun r => decide (r.eventId = id)) = [] ∧
      (PetCare.deleteEvent st id).events.filter (fun e => decide (e.id = id)) = []) ∧
    (PetCare.getEventsByPet (PetCare.deleteEvent st id) p).filter
      (fun e => decide (e.event.id = id)) = [] := by
  have hjoins : (st.petEvents.filter (fun r => decide (r.eventId ≠ id))).filter
      (fun r => decide (r.eventId = id)) = [] := by
    rw [List.filter_eq_nil_iff]
    intro a ha
    have := List.of_mem_filter ha
    simp only [decide_eq_true_eq] at this ⊢
    exact this
  have hevents : (st.events.filter (fun e => decide (e.id ≠ id))).filter
      (fun e => decide (e.id = id)) = [] := by
    rw [List.filter_eq_nil_iff]
    intro a ha
    have := List.of_mem_filter ha
    simp only [decide_eq_true_eq] at this ⊢
    exact this
  refine ⟨⟨hjoins, rfl⟩, ⟨hjoins, hevents⟩, ?_⟩
  rw [List.filter_eq_nil_iff]
  intro e he
  simp only [decide_eq_true_eq]
  simp only [PetCare.getEventsByPet] at he
  split at he
  · exact absurd he (List.not_mem_nil e)
  · have he' := List.mem_of_mem_filter he
    simp only [PetCare.getEvents] at he'
    rcases List.mem_map.1 he' with ⟨ev, hev, rfl⟩
    have hev' := (List.mem_insertionSort _).1 hev
    have hthis : ev ∈ st.events.filter (fun e => decide (e.id ≠ id)) := hev'
    have hne := List.of_mem_filter hthis
    simpa using hne

/-- An event present in the events table that has a join row for a pet
appears in that pet's per-pet event list. -/
theorem mem_getEventsByPet {st : PetCare.Storage} {petId : Nat} {ev : PetCare.Event}
    (hev : ev ∈ st.events) (r : PetCare.PetEvent) (hr : r ∈ st.petEvents)
    (hrp : r.petId = petId) (hre : r.eventId = ev.id) :
    ∃ e ∈ PetCare.getEventsByPet st petId, e.event.id = ev.id := by
  have hmemIds : ev.id ∈ (st.petEvents.filter (fun q => decide (q.petId = petId))).map
      (fun q => q.eventId) :=
    List.mem_map.2 ⟨r, List.mem_filter.2 ⟨hr, by simp [hrp]⟩, hre⟩
  have hne : ¬((st.petEvents.filter (fun q => decide (q.petId = petId))).map
      (fun q => q.eventId)).isEmpty = true := by
    intro hemp
    rw [List.isEmpty_iff] at hemp
    rw [hemp] at hmemIds
    exact absurd hmemIds (List.not_mem_nil _)
  refine ⟨PetCare.attachPets st ev, ?_, rfl⟩
  simp only [PetCare.getEventsByPet]
  rw [if_neg hne]
  refine List.mem_filter.2 ⟨?_, ?_⟩
  · simp only [PetCare.getEvents]
    exact List.mem_map.2 ⟨ev, (List.mem_insertionSort _).2 hev, rfl⟩
  · simpa [PetCare.attachPets] using hmemIds

/-- C5: on a schema-valid body, `POST /api/events` with an empty (or
missing) pet-id list is rejected with the explicit message and an untouched
store, while `petIds = [7, 9]` creates the event, adds exactly the two join
rows (pet 7 and pet 9, in order), after which the event appears in both
pet 7's and pet 9's per-pet event lists. -/
theorem c5_post_events_pet_links (st : PetCare.Storage) (body : PetCare.InsertEvent)
    (hfresh : ∀ r ∈ st.petEvents, r.eventId ≠ st.eventSeq) :
    PetCare.postEventsRoute st body (some []) =
      (PetCare.PostEventResult.badRequest "At least one pet must be selected", st) ∧
    PetCare.postEventsRoute st body none =
      (PetCare.PostEventResult.badRequest "At least one pet must be selected", st) ∧
    (PetCare.postEventsRoute st body (some [7, 9])).1 =
      PetCare.PostEventResult.created (PetCare.createEvent st body [7, 9]).1 ∧
    ((PetCare.postEventsRoute st body (some [7, 9])).2.petEvents.filter
        (fun pe => decide (pe.eventId = (PetCare.createEvent st body [7, 9]).1.id))).map
      (fun pe => pe.petId) = [7, 9] ∧
    (∃ e ∈ PetCare.getEventsByPet (PetCare.postEventsRoute st body (some [7, 9])).2 7,
      e.event.id = (PetCare.createEvent st body [7, 9]).1.id) ∧
    (∃ e ∈ PetCare.getEventsByPet (PetCare.postEventsRoute st body (some [7, 9])).2 9,
      e.event.id = (PetCare.createEvent st body [7, 9]).1.id) := by
  have hold : st.petEvents.filter (fun pe => decide (pe.eventId = st.eventSeq)) = [] := by
    rw [List.filter_eq_nil_iff]
    intro a ha
    simpa using hfresh a ha
  refine ⟨rfl, rfl, rfl, ?_, ?_, ?_⟩
  · show ((st.petEvents ++
        PetCare.mkPetEventRows st.petEventSeq st.eventSeq [7, 9]).filter
          (fun pe => decide (pe.eventId = st.eventSeq))).map (fun pe => pe.petId) = [7, 9]
    rw [List.filter_append, hold]
    simp [PetCare.mkPetEventRows]
  · refine @mem_getEventsByPet (PetCare.postEventsRoute st body (some [7, 9])).2 7
      (PetCare.createEvent st body [7, 9]).1
      ?_ ⟨st.petEventSeq, 7, st.eventSeq⟩ ?_ rfl rfl
    · show (PetCare.createEvent st body [7, 9]).1 ∈
        st.events ++ [(PetCare.createEvent st body [7, 9]).1]
      exact List.mem_append.2 (Or.inr (List.mem_singleton.2 rfl))
    · show (⟨st.petEventSeq, 7, st.eventSeq⟩ : PetCare.PetEvent) ∈
        st.petEvents ++ PetCare.mkPetEventRows st.petEventSeq st.eventSeq [7, 9]
      exact List.mem_append.2 (Or.inr (by simp [PetCare.mkPetEventRows]))
  · refine @mem_getEventsByPet (PetCare.postEventsRoute st body (some [7, 9])).2 9
      (PetCare.createEvent st body [7, 9]).1
      ?_ ⟨st.petEventSeq + 1, 9, st.eventSeq⟩ ?_ rfl rfl
    · show (PetCare.createEvent st body [7, 9]).1 ∈
        st.events ++ [(PetCare.createEvent st body [7, 9]).1]
      exact List.mem_append.2 (Or.inr (List.mem_singleton.2 rfl))
    · show (⟨st.petEventSeq + 1, 9, st.eventSeq⟩ : PetCare.PetEvent) ∈
        st.petEvents ++ PetCare.mkPetEventRows st.petEventSeq st.eventSeq [7, 9]
      exact List.mem_append.2 (Or.inr (by simp [PetCare.mkPetEventRows]))

/-- C5 witness: the empty store with the sample body: empty pet list is
rejected with the message, and `petIds = [7, 9]` yields exactly the join
rows for pets 7 and 9. -/
theorem c5_post_events_pet_links_witness :
    PetCare.postEventsRoute PetCare.emptyStorage PetCare.sampleInsertEvent (some []) =
      (PetCare.PostEventResult.badRequest "At least one pet must be selected",
        PetCare.emptyStorage) ∧
    ((PetCare.postEventsRoute PetCare.emptyStorage PetCare.sampleInsertEvent
          (some [7, 9])).2.petEvents.filter
        (fun pe => decide (pe.eventId =
          (PetCare.createEvent PetCare.emptyStorage PetCare.sampleInsertEvent
            [7, 9]).1.id))).map (fun pe => pe.petId) = [7, 9] := by
  have h := c5_post_events_pet_links PetCare.emptyStorage PetCare.sampleInsertEvent
    (by intro r hr; simp [PetCare.emptyStorage] at hr)
  exact ⟨h.1, h.2.2.2.1⟩

/-- C3 counterexample: with today = 2026-01-15, a vaccination next due
2026-01-05 has day-offset −10, outside the claimed [−7, +90] window, yet
the pet-detail upcoming list includes it. -/
theorem c3_counterexample :
    PetCare.daysFromCivil 2026 1 5 - PetCare.refToday = -10 ∧
    ¬((-7 : Int) ≤ -10) ∧
    PetCare.upcomingItems PetCare.refToday
        [PetCare.mkVax (some (PetCare.daysFromCivil 2026 1 5))] [] =
      [⟨"vaccination", "Rabies", -10, PetCare.BadgeVariant.destructive⟩] := by
  decide

/-- C3 (amended): the pet-detail upcoming list contains exactly the
vaccinations whose next-due day-offset is at most 90 — with no lower bound,
so arbitrarily overdue items stay included — plus one entry per active
medication (at offset 0), sorted ascending by day-offset so the most
overdue item comes first; the reminders page separately lists the events
whose day-offset lies strictly between −7 and +90, also sorted ascending by
day-offset. -/
theorem c3_amended_reminder_windows (today : Int) (vaxes : List PetCare.Vaccination)
    (meds : List PetCare.Medication) (v : PetCare.Vaccination) (d : Int)
    (hv : v ∈ vaxes) (hd : v.nextDueDate = some d)
    (events : List PetCare.EventWithPets) (ev : PetCare.EventWithPets) :
    List.Sorted PetCare.itemLe (PetCare.upcomingItems today vaxes meds) ∧
    (d - today ≤ 90 ↔
      PetCare.vaxItemAt today v d ∈ PetCare.upcomingItems today vaxes meds) ∧
    (∀ m ∈ meds, m.active = true →
      PetCare.medUpcomingItem m ∈ PetCare.upcomingItems today vaxes meds) ∧
    (∀ it ∈ PetCare.upcomingItems today vaxes meds,
      (∃ v' ∈ vaxes, PetCare.vaxUpcomingItem today v' = some it) ∨
      (∃ m ∈ meds, m.active = true ∧ PetCare.medUpcomingItem m = it)) ∧
    ((ev, PetCare.getStatus today ev.event.eventDate) ∈
        PetCare.remindersUpcomingEvents today events ↔
      ev ∈ events ∧ today - 7 < ev.event.eventDate ∧ ev.event.eventDate < today + 90) ∧
    List.Sorted PetCare.reminderLe (PetCare.remindersUpcomingEvents today events) := by
  refine ⟨List.sorted_insertionSort _ _, ?_, ?_, ?_, ?_, List.sorted_insertionSort _ _⟩
  · constructor
    · intro hle
      refine PetCare.mem_upcomingItems.2 (Or.inl (List.mem_filterMap.2 ⟨v, hv, ?_⟩))
      rw [PetCare.vaxUpcomingItem_eq hd, if_pos hle]
    · intro hmem
      have := PetCare.upcomingItems_daysUntil_le hmem
      simpa [PetCare.vaxItemAt] using this
  · intro m hm hact
    exact PetCare.mem_upcomingItems.2 (Or.inr (List.mem_map.2
      ⟨m, List.mem_filter.2 ⟨hm, by simp [hact]⟩, rfl⟩))
  · intro it hit
    rcases PetCare.mem_upcomingItems.1 hit with h1 | h2
    · exact Or.inl (List.mem_filterMap.1 h1)
    · rcases List.mem_map.1 h2 with ⟨m, hmf, heq⟩
      rcases List.mem_filter.1 hmf with ⟨hm, hact⟩
      exact Or.inr ⟨m, hm, by simpa using hact, heq⟩
  · simp only [PetCare.remindersUpcomingEvents, List.mem_insertionSort, List.mem_map,
      List.mem_filter, Bool.and_eq_true, decide_eq_true_eq, Prod.mk.injEq]
    constructor
    · rintro ⟨a, ⟨ha, h1, h2⟩, rfl, -⟩
      exact ⟨ha, h1, h2⟩
    · rintro ⟨ha, h1, h2⟩
      exact ⟨ev, ⟨ha, h1, h2⟩, rfl, rfl⟩

/-- C3 witness: a single vaccination ten days out and a single event ten
days out at today = 2026-01-15. -/
theorem c3_amended_reminder_windows_witness :
    List.Sorted PetCare.itemLe (PetCare.upcomingItems PetCare.refToday
      [PetCare.mkVax (some (PetCare.refToday + 10))] []) ∧
    ((PetCare.refToday + 10) - PetCare.refToday ≤ 90 ↔
      PetCare.vaxItemAt PetCare.refToday
          (PetCare.mkVax (some (PetCare.refToday + 10))) (PetCare.refToday + 10) ∈
        PetCare.upcomingItems PetCare.refToday
          [PetCare.mkVax (some (PetCare.refToday + 10))] []) ∧
    ((PetCare.sampleEventWithPets,
        PetCare.getStatus PetCare.refToday PetCare.sampleEventWithPets.event.eventDate) ∈
        PetCare.remindersUpcomingEvents PetCare.refToday [PetCare.sampleEventWithPets] ↔
      PetCare.sampleEventWithPets ∈ [PetCare.sampleEventWithPets] ∧
        PetCare.refToday - 7 < PetCare.sampleEventWithPets.event.eventDate ∧
        PetCare.sampleEventWithPets.event.eventDate < PetCare.refToday + 90) := by
  have h := c3_amended_reminder_windows PetCare.refToday
    [PetCare.mkVax (some (PetCare.refToday + 10))] []
    (PetCare.mkVax (some (PetCare.refToday + 10))) (PetCare.refToday + 10)
    (List.mem_singleton.2 rfl) rfl [PetCare.sampleEventWithPets] PetCare.sampleEventWithPets
  exact ⟨h.1, h.2.1, h.2.2.2.2.1⟩
